import Mathlib

/-!
# Verification of the SolarTimes sunrise/sunset engine

This file gives a shallow embedding in Lean 4 of the computational core of
`sunrise_sunset.c` (Julian-Day arithmetic, the solar ephemeris chain, the
hour-angle event solver and the angle-format utility) and proves or refutes
the specification's claims about it.

Modelling conventions:
* C `double` values are modelled as real numbers (`ℝ`); all arithmetic is
  exact.  C `int`/`long` values are modelled as `ℤ`, with C's
  truncating division `/` modelled by `Int.tdiv` (rounds toward zero).
* `floor` on doubles is `Int.floor`, `trunc` is floor/ceil chosen by sign.
* IEEE NaN production and propagation is modelled with `Option ℝ`:
  `none` is NaN.  `acos` applied to an argument outside `[-1, 1]` is NaN in
  C; dividing by zero yields an infinity or NaN whose `acos` is NaN as
  well, so `LocalHourAngleSunRad` returns `none` in both situations and
  the solver propagates `none` through `Option.map`/`Option.bind`, exactly
  as NaN flows through the C arithmetic.
* The C `while` loops of `NormalizeDegrees` are modelled by well-founded
  recursion (`subLoop`, `addLoop`); fuel-indexed variants
  (`subLoopFuel`, `addLoopFuel`) model the step-by-step execution of the
  loops and are used to state termination.
-/

namespace SolarTimes

open scoped Classical

noncomputable section

/-- Embedding of `RADEG` from the source: `180.0 / M_PI`. -/
def RADEG : ℝ := 180 / Real.pi

/-- Embedding of `DEGRAD` from the source: `M_PI / 180.0`. -/
def DEGRAD : ℝ := Real.pi / 180

/-- Embedding of `MIN_PER_DEG` from the source: 4 minutes of time per degree. -/
def MIN_PER_DEG : ℝ := 4

/-- Embedding of `MIN_PER_DAY` from the source: 1440 minutes per day. -/
def MIN_PER_DAY : ℝ := 1440

/-- Embedding of `DEG2RAD(x)` from the source. -/
def DEG2RAD (x : ℝ) : ℝ := x * DEGRAD

/-- Embedding of `RAD2DEG(x)` from the source. -/
def RAD2DEG (x : ℝ) : ℝ := x * RADEG

/-- Embedding of `DEG2MIN(x)` from the source. -/
def DEG2MIN (x : ℝ) : ℝ := x * MIN_PER_DEG

/-- Embedding of `sind(x)` from the source: sine of an angle given in degrees. -/
def sind (x : ℝ) : ℝ := Real.sin (x * DEGRAD)

/-- Embedding of `cosd(x)` from the source: cosine of an angle given in degrees. -/
def cosd (x : ℝ) : ℝ := Real.cos (x * DEGRAD)

/-- Embedding of `tand(x)` from the source: tangent of an angle given in degrees. -/
def tand (x : ℝ) : ℝ := Real.tan (x * DEGRAD)

/-- Embedding of `DAYS_IN_CENTURY` from the source. -/
def DAYS_IN_CENTURY : ℝ := 36525

/-- Embedding of `JAN_1_2000_JD` from the source. -/
def JAN_1_2000_JD : ℝ := 2451545

/-- Embedding of `JulianCenturyFromJulianDay` from the source (Meeus 25.1). -/
def JulianCenturyFromJulianDay (jd : ℝ) : ℝ :=
  (jd - JAN_1_2000_JD) / DAYS_IN_CENTURY

/-- Embedding of `JulianDayFromJulianCentury` from the source. -/
def JulianDayFromJulianCentury (centuryTime : ℝ) : ℝ :=
  centuryTime * DAYS_IN_CENTURY + JAN_1_2000_JD

/-- Embedding of `MeanObliquityEcliptic` from the source (Meeus 22.2). -/
def MeanObliquityEcliptic (centuryTime : ℝ) : ℝ :=
  let arcSeconds := 21.448 - centuryTime *
    (46.8150 + centuryTime * (0.00059 - centuryTime * 0.001813))
  23 + (26 + arcSeconds / 60) / 60

/-- First `while` loop of `NormalizeDegrees`:
subtract 360 while the value is strictly greater than 360. -/
def subLoop (x : ℝ) : ℝ :=
  if 360 < x then subLoop (x - 360) else x
termination_by (⌈(x - 360) / 360⌉₊ : ℕ)
decreasing_by
  have hx : (0:ℝ) < (x - 360) / 360 := by
    apply div_pos <;> linarith
  have h1 : 1 ≤ ⌈(x - 360) / 360⌉₊ := Nat.one_le_iff_ne_zero.mpr (by
    simp [Nat.ceil_eq_zero, not_le, hx])
  have h2 : ⌈(x - 360 - 360) / 360⌉₊ ≤ ⌈(x - 360) / 360⌉₊ - 1 := by
    rw [Nat.ceil_le]
    push_cast [h1]
    have h3 := Nat.le_ceil ((x - 360) / 360)
    linarith [h3]
  omega

/-- Second `while` loop of `NormalizeDegrees`:
add 360 while the value is strictly negative. -/
def addLoop (x : ℝ) : ℝ :=
  if x < 0 then addLoop (x + 360) else x
termination_by (⌈-x / 360⌉₊ : ℕ)
decreasing_by
  have hx : (0:ℝ) < -x / 360 := by
    apply div_pos <;> linarith
  have h1 : 1 ≤ ⌈-x / 360⌉₊ := Nat.one_le_iff_ne_zero.mpr (by
    simp [Nat.ceil_eq_zero, not_le, hx])
  have h2 : ⌈-(x + 360) / 360⌉₊ ≤ ⌈-x / 360⌉₊ - 1 := by
    rw [Nat.ceil_le]
    push_cast [h1]
    have h3 := Nat.le_ceil (-x / 360)
    have heq : -(x + 360) / 360 = -x / 360 - 1 := by ring
    rw [heq]
    linarith [h3]
  omega

/-- Embedding of `NormalizeDegrees` from the source: the two `while` loops in sequence. -/
def NormalizeDegrees (degrees : ℝ) : ℝ :=
  addLoop (subLoop degrees)

/-- Fuel-indexed execution of the first `while` loop of `NormalizeDegrees`:
`none` means the loop has not finished within the given number of steps. -/
def subLoopFuel : ℕ → ℝ → Option ℝ
  | 0, _ => none
  | n + 1, x => if 360 < x then subLoopFuel n (x - 360) else some x

/-- Fuel-indexed execution of the second `while` loop of `NormalizeDegrees`. -/
def addLoopFuel : ℕ → ℝ → Option ℝ
  | 0, _ => none
  | n + 1, x => if x < 0 then addLoopFuel n (x + 360) else some x

/-- Fuel-indexed execution of `NormalizeDegrees`: run both loops with the
given step budget. -/
def normalizeDegreesFuel (n : ℕ) (x : ℝ) : Option ℝ :=
  (subLoopFuel n x).bind (addLoopFuel n)

/-- Embedding of `GeometricMeanLongitudeSun` from the source (Meeus 25.2). -/
def GeometricMeanLongitudeSun (centuryTime : ℝ) : ℝ :=
  280.46646 + centuryTime * (36000.76983 + centuryTime * 0.0003032)

/-- Embedding of `GeometricMeanAnomalySun` from the source (Meeus 25.3). -/
def GeometricMeanAnomalySun (centuryTime : ℝ) : ℝ :=
  357.52911 + centuryTime * (35999.05029 - centuryTime * 0.0001537)

/-- Embedding of `EccentricityEarth` from the source (Meeus 25.4). -/
def EccentricityEarth (centuryTime : ℝ) : ℝ :=
  0.016708634 - centuryTime * (0.000042037 + centuryTime * 0.0000001267)

/-- Embedding of `EquationOfCenterSunEx` from the source.  Note the source doubles
`mrad` twice, so the third sine argument is `4·M` (kept faithfully). -/
def EquationOfCenterSunEx (centuryTime meanAnomalySun : ℝ) : ℝ :=
  let mrad := DEG2RAD meanAnomalySun
  let sinm := Real.sin mrad
  let mrad2 := mrad + mrad
  let sin2m := Real.sin mrad2
  let mrad4 := mrad2 + mrad2
  let sin3m := Real.sin mrad4
  (1.914602 - centuryTime * (0.004817 + centuryTime * 0.000014)) * sinm +
    (0.019993 - 0.000101 * centuryTime) * sin2m +
    0.000289 * sin3m

/-- Embedding of `EquationOfCenterSun` from the source: recompute the mean anomaly
from the century time, then call the general form. -/
def EquationOfCenterSun (centuryTime : ℝ) : ℝ :=
  EquationOfCenterSunEx centuryTime (GeometricMeanAnomalySun centuryTime)

/-- Embedding of `TrueLongitudeSun` from the source. -/
def TrueLongitudeSun (centuryTime : ℝ) : ℝ :=
  GeometricMeanLongitudeSun centuryTime + EquationOfCenterSun centuryTime

/-- Embedding of `Omega` from the source: longitude of the ascending node of the
Moon's mean orbit, degrees. -/
def Omega (centuryTime : ℝ) : ℝ :=
  125.04 - 1934.136 * centuryTime

/-- Embedding of `OmegaRad` from the source. -/
def OmegaRad (centuryTime : ℝ) : ℝ :=
  DEG2RAD (Omega centuryTime)

/-- Embedding of `ApparentLongitudeSunEx` from the source. -/
def ApparentLongitudeSunEx (centuryTime omegaRad : ℝ) : ℝ :=
  TrueLongitudeSun centuryTime - 0.000569 - 0.00478 * Real.sin omegaRad

/-- Embedding of `ApparentLongitudeSun` from the source. -/
def ApparentLongitudeSun (centuryTime : ℝ) : ℝ :=
  ApparentLongitudeSunEx centuryTime (OmegaRad centuryTime)

/-- Embedding of `ObliquityCorrectionEx` from the source (Meeus 25.8). -/
def ObliquityCorrectionEx (centuryTime omegaRad : ℝ) : ℝ :=
  MeanObliquityEcliptic centuryTime + 0.00256 * Real.cos omegaRad

/-- Embedding of `ObliquityCorrection` from the source. -/
def ObliquityCorrection (centuryTime : ℝ) : ℝ :=
  ObliquityCorrectionEx centuryTime (OmegaRad centuryTime)

/-- Embedding of `SunDeclinationRad` from the source (Meeus 25.7). -/
def SunDeclinationRad (centuryTime : ℝ) : ℝ :=
  let omegaRad := OmegaRad centuryTime
  let oc := ObliquityCorrectionEx centuryTime omegaRad
  let al := ApparentLongitudeSunEx centuryTime omegaRad
  Real.arcsin (sind oc * sind al)

/-- Embedding of `EquationOfTime` from the source (Meeus 28.3), in minutes of time. -/
def EquationOfTime (centuryTime : ℝ) : ℝ :=
  let epsilon := ObliquityCorrection centuryTime
  let y0 := tand (epsilon / 2)
  let y := y0 * y0
  let l0 := DEG2RAD (GeometricMeanLongitudeSun centuryTime)
  let e := EccentricityEarth centuryTime
  let m := DEG2RAD (GeometricMeanAnomalySun centuryTime)
  let l0x2 := l0 + l0
  let l0x4 := l0x2 + l0x2
  let sinm := Real.sin m
  let mx2 := m + m
  let ex2 := e + e
  let eRad := y * Real.sin l0x2 - ex2 * sinm + 2 * ex2 * y * sinm * Real.cos l0x2 -
    0.5 * y * y * Real.sin l0x4 - 1.25 * e * e * Real.sin mx2
  DEG2MIN (RAD2DEG eRad)

/-- Embedding of `LocalHourAngleSunRad` from the source.  In C the result is
`acos(cosHA)`: NaN (`none`) when the denominator vanishes (the quotient is
an infinity or NaN, whose `acos` is NaN) or when the quotient falls outside
`[-1, 1]`; otherwise the hour angle in radians. -/
def LocalHourAngleSunRad (latitudeRad declinationRad angleRad : ℝ) : Option ℝ :=
  let num := Real.cos angleRad - Real.sin latitudeRad * Real.sin declinationRad
  let den := Real.cos latitudeRad * Real.cos declinationRad
  if den = 0 then none
  else
    let cosHA := num / den
    if cosHA < -1 ∨ 1 < cosHA then none
    else some (Real.arccos cosHA)

/-- The predicate of the error-handling claim: the argument that the C code
hands to `acos` falls outside `[-1, 1]`.  (In Lean division by zero yields
`0`, which lies inside `[-1, 1]`, so this predicate also forces the
denominator to be nonzero.) -/
def acosArgOutOfRange (latitudeRad declinationRad angleRad : ℝ) : Prop :=
  let cosHA := (Real.cos angleRad - Real.sin latitudeRad * Real.sin declinationRad) /
    (Real.cos latitudeRad * Real.cos declinationRad)
  cosHA < -1 ∨ 1 < cosHA

/-- Embedding of `UTCForSolarAngleAux` from the source: one pass of the solver.
`rise` models the C `int rise` flag (`true` for nonzero).  NaN from the
hour angle propagates through the C subtraction; here through `Option.map`. -/
def UTCForSolarAngleAux (rise : Bool) (jd latitudeRad angleRad : ℝ) : Option ℝ :=
  let centuryTime := JulianCenturyFromJulianDay jd
  let equationOfTime := EquationOfTime centuryTime
  let sunDeclinationRad := SunDeclinationRad centuryTime
  (LocalHourAngleSunRad latitudeRad sunDeclinationRad angleRad).map fun ha =>
    let hourAngle := if rise then ha else -ha
    720 - 4 * RAD2DEG hourAngle - equationOfTime

/-- Embedding of `UTCForSolarAngle` from the source: two passes; a NaN first pass makes
the shifted JD NaN and hence the second pass NaN (modelled by `Option.bind`). -/
def UTCForSolarAngle (rise : Bool) (jd latitude angle : ℝ) : Option ℝ :=
  let latitudeRad := DEG2RAD latitude
  let angleRad := DEG2RAD angle
  (UTCForSolarAngleAux rise jd latitudeRad angleRad).bind fun firstTime =>
    UTCForSolarAngleAux rise (jd + firstTime / MIN_PER_DAY) latitudeRad angleRad

/-- The hour-angle solver as worded by the specification (§4.4), for the
refinement claim: compute the hour angle `H` from the declination at the
century time of the given JD, negate it on the set side, form
`720 − 4·H(degrees) − equationOfTime(T)` as the first pass, then return
that same formula re-evaluated once at `jd + firstPassMinutes / 1440`,
with no further passes. -/
def UTCForSolarAngleSpecTwoPass (rise : Bool) (jd latitude angle : ℝ) : Option ℝ :=
  let onePass : ℝ → Option ℝ := fun j =>
    let t := JulianCenturyFromJulianDay j
    (LocalHourAngleSunRad (DEG2RAD latitude) (SunDeclinationRad t) (DEG2RAD angle)).map
      fun ha => 720 - 4 * RAD2DEG (if rise then ha else -ha) - EquationOfTime t
  (onePass jd).bind fun firstPassMinutes => onePass (jd + firstPassMinutes / 1440)

/-- Embedding of `JulianDayEx` from the source (Meeus 7.1).  `Int.tdiv` models C's
truncating integer division; the flag reproduces the source's calendar
test verbatim, including its `m > 11` comparison. -/
def JulianDayEx (y m : ℤ) (dayFrac : ℝ) : ℝ :=
  let isJulianDate : Prop :=
    ¬(1582 < y ∨ (y = 1582 ∧ (11 < m ∨ (m = 10 ∧ 15 ≤ dayFrac))))
  let y2 := if m ≤ 2 then y - 1 else y
  let m2 := if m ≤ 2 then m + 12 else m
  let a := Int.tdiv y2 100
  let b : ℤ := if isJulianDate then 0 else 2 - a + Int.tdiv a 4
  (⌊(365.25 : ℝ) * ((y2 : ℝ) + 4716)⌋ : ℝ) + (⌊(30.6001 : ℝ) * ((m2 : ℝ) + 1)⌋ : ℝ) +
    dayFrac + (b : ℝ) - 1524.5

/-- C `trunc` / integral casts: round a real toward zero to an integer. -/
def truncToZero (x : ℝ) : ℤ :=
  if 0 ≤ x then ⌊x⌋ else ⌈x⌉

/-- Embedding of `D2DMS` from the source: degrees/minutes/seconds decomposition of a
decimal-degree value, via whole milliseconds of arc. -/
def D2DMS (degreesFrac : ℝ) : ℤ × ℤ × ℝ :=
  let degrees := truncToZero degreesFrac
  let fraction := degreesFrac - (degrees : ℝ)
  let fraction2 := fraction * (3600 * 1000)
  let milliSeconds := truncToZero fraction2
  let minutes := Int.tdiv milliSeconds (60 * 1000)
  let milliSeconds2 := milliSeconds - minutes * (60 * 1000)
  (degrees, minutes, (milliSeconds2 : ℝ) / 1000)

end

/-! ## Helper lemmas about the `NormalizeDegrees` loops -/

theorem subLoop_le (x : ℝ) : subLoop x ≤ 360 := by
  induction x using subLoop.induct with
  | case1 x h ih => rw [subLoop, if_pos h]; exact ih
  | case2 x h => rw [subLoop, if_neg h]; linarith

theorem subLoop_eq_sub (x : ℝ) : ∃ k : ℕ, subLoop x = x - 360 * k := by
  induction x using subLoop.induct with
  | case1 x h ih =>
      obtain ⟨k, hk⟩ := ih
      exact ⟨k + 1, by rw [subLoop, if_pos h, hk]; push_cast; ring⟩
  | case2 x h => exact ⟨0, by rw [subLoop, if_neg h]; push_cast; ring⟩

theorem addLoop_nonneg (x : ℝ) : 0 ≤ addLoop x := by
  induction x using addLoop.induct with
  | case1 x h ih => rw [addLoop, if_pos h]; exact ih
  | case2 x h => rw [addLoop, if_neg h]; linarith

theorem addLoop_le (x : ℝ) (hx : x ≤ 360) : addLoop x ≤ 360 := by
  induction x using addLoop.induct with
  | case1 x h ih => rw [addLoop, if_pos h]; exact ih (by linarith)
  | case2 x h => rw [addLoop, if_neg h]; exact hx

theorem addLoop_eq_add (x : ℝ) : ∃ k : ℕ, addLoop x = x + 360 * k := by
  induction x using addLoop.induct with
  | case1 x h ih =>
      obtain ⟨k, hk⟩ := ih
      exact ⟨k + 1, by rw [addLoop, if_pos h, hk]; push_cast; ring⟩
  | case2 x h => exact ⟨0, by rw [addLoop, if_neg h]; push_cast; ring⟩

theorem subLoopFuel_succ_of {n : ℕ} {x v : ℝ} (h : subLoopFuel n x = some v) :
    subLoopFuel (n + 1) x = some v := by
  induction n generalizing x with
  | zero => simp [subLoopFuel] at h
  | succ n ih =>
      rw [subLoopFuel] at h
      rw [subLoopFuel]
      by_cases hx : 360 < x
      · rw [if_pos hx] at h
        rw [if_pos hx]
        exact ih h
      · rw [if_neg hx] at h
        rw [if_neg hx]
        exact h

theorem subLoopFuel_le_of {m n : ℕ} {x v : ℝ} (hmn : m ≤ n)
    (h : subLoopFuel m x = some v) : subLoopFuel n x = some v := by
  induction hmn with
  | refl => exact h
  | step _ ih => exact subLoopFuel_succ_of ih

theorem addLoopFuel_succ_of {n : ℕ} {x v : ℝ} (h : addLoopFuel n x = some v) :
    addLoopFuel (n + 1) x = some v := by
  induction n generalizing x with
  | zero => simp [addLoopFuel] at h
  | succ n ih =>
      rw [addLoopFuel] at h
      rw [addLoopFuel]
      by_cases hx : x < 0
      · rw [if_pos hx] at h
        rw [if_pos hx]
        exact ih h
      · rw [if_neg hx] at h
        rw [if_neg hx]
        exact h

theorem addLoopFuel_le_of {m n : ℕ} {x v : ℝ} (hmn : m ≤ n)
    (h : addLoopFuel m x = some v) : addLoopFuel n x = some v := by
  induction hmn with
  | refl => exact h
  | step _ ih => exact addLoopFuel_succ_of ih

theorem subLoop_realized (x : ℝ) : ∃ n : ℕ, subLoopFuel n x = some (subLoop x) := by
  induction x using subLoop.induct with
  | case1 x h ih =>
      obtain ⟨n, hn⟩ := ih
      refine ⟨n + 1, ?_⟩
      rw [subLoop, if_pos h, subLoopFuel, if_pos h]
      exact hn
  | case2 x h =>
      refine ⟨1, ?_⟩
      rw [subLoop, if_neg h, subLoopFuel, if_neg h]

theorem addLoop_realized (x : ℝ) : ∃ n : ℕ, addLoopFuel n x = some (addLoop x) := by
  induction x using addLoop.induct with
  | case1 x h ih =>
      obtain ⟨n, hn⟩ := ih
      refine ⟨n + 1, ?_⟩
      rw [addLoop, if_pos h, addLoopFuel, if_pos h]
      exact hn
  | case2 x h =>
      refine ⟨1, ?_⟩
      rw [addLoop, if_neg h, addLoopFuel, if_neg h]

/-! ## Claim theorems -/

/-- C3 (amended): for every real `x`, `NormalizeDegrees x` lies in the
closed interval `[0, 360]` and differs from `x` by an integer multiple of
360.  (The original claim's half-open interval `[0, 360)` fails: the first
loop only runs while the value is strictly greater than 360, so inputs
that are multiples of 360 and at least 360 come out as exactly 360.) -/
theorem normalizeDegrees_range_and_mod (x : ℝ) :
    0 ≤ NormalizeDegrees x ∧ NormalizeDegrees x ≤ 360 ∧
      ∃ k : ℤ, NormalizeDegrees x - x = 360 * k := by
  refine ⟨addLoop_nonneg _, addLoop_le _ (subLoop_le x), ?_⟩
  obtain ⟨k1, hk1⟩ := subLoop_eq_sub x
  obtain ⟨k2, hk2⟩ := addLoop_eq_add (subLoop x)
  refine ⟨(k2 : ℤ) - (k1 : ℤ), ?_⟩
  rw [NormalizeDegrees, hk2, hk1]
  push_cast
  ring

/-- C3 counterexample: `NormalizeDegrees 360 = 360`, so the result does not
lie in the half-open interval `[0, 360)` claimed by the specification. -/
theorem normalizeDegrees_360_cex :
    NormalizeDegrees (360 : ℝ) = 360 ∧ ¬ NormalizeDegrees (360 : ℝ) < 360 := by
  have h : NormalizeDegrees (360 : ℝ) = 360 := by
    rw [NormalizeDegrees, subLoop]
    norm_num
    rw [addLoop]
    norm_num
  exact ⟨h, by rw [h]; exact lt_irrefl 360⟩

/-- C10: for every real input `x` the two `while` loops of
`NormalizeDegrees` finish after finitely many steps: some finite fuel
makes the step-by-step execution return, and its value is the one computed
by the well-founded-recursion definition.  (Every `ℝ` value is finite, so
the claim's finiteness precondition is automatic in this model.) -/
theorem normalizeDegrees_terminates (x : ℝ) :
    ∃ n : ℕ, normalizeDegreesFuel n x = some (NormalizeDegrees x) := by
  obtain ⟨n1, h1⟩ := subLoop_realized x
  obtain ⟨n2, h2⟩ := addLoop_realized (subLoop x)
  refine ⟨max n1 n2, ?_⟩
  rw [normalizeDegreesFuel, subLoopFuel_le_of (le_max_left n1 n2) h1]
  simpa [NormalizeDegrees] using addLoopFuel_le_of (le_max_right n1 n2) h2

/-- C7: `JulianCenturyFromJulianDay` and `JulianDayFromJulianCentury` are
total and mutually inverse linear maps. -/
theorem julianCentury_julianDay_inverse (jd centuryTime : ℝ) :
    JulianDayFromJulianCentury (JulianCenturyFromJulianDay jd) = jd ∧
      JulianCenturyFromJulianDay (JulianDayFromJulianCentury centuryTime) = centuryTime := by
  constructor <;>
    · rw [JulianDayFromJulianCentury, JulianCenturyFromJulianDay,
        DAYS_IN_CENTURY, JAN_1_2000_JD]
      field_simp

/-- C8: the convenience form of the equation of center agrees exactly with
the general form evaluated at the mean anomaly recomputed from the same
century time. -/
theorem equationOfCenter_forms_agree (centuryTime : ℝ) :
    EquationOfCenterSun centuryTime =
      EquationOfCenterSunEx centuryTime (GeometricMeanAnomalySun centuryTime) := rfl

/-- C4: the solver is the fixed two-pass scheme of the specification: the
first pass evaluates `720 − 4·H(degrees) − equationOfTime(T)` at the input
JD's century time (`H` negated on the set side), and the returned value is
the same formula re-evaluated once at `jd + firstPassMinutes/1440`, with
no further passes. -/
theorem utcForSolarAngle_is_two_pass (rise : Bool) (jd latitude angle : ℝ) :
    UTCForSolarAngle rise jd latitude angle =
      UTCForSolarAngleSpecTwoPass rise jd latitude angle := rfl

/-- C6: the Julian Day conversion hits the specification's fixed points:
J2000.0 noon, 1999-01-01 0h, and the epoch origin −4712-01-01 12h. -/
theorem julianDayEx_fixed_points :
    JulianDayEx 2000 1 1.5 = 2451545 ∧ JulianDayEx 1999 1 1 = 2451179.5 ∧
      JulianDayEx (-4712) 1 1.5 = 0 := by
  refine ⟨?_, ?_, ?_⟩ <;>
    · rw [JulianDayEx]
      norm_num [Int.tdiv]

/-- C9: `D2DMS 121.135 = (121, 8, 6)`: the whole-degree part is truncated
toward zero and the minute/second decomposition goes through whole
milliseconds of arc. -/
theorem d2dms_121_135 : D2DMS 121.135 = (121, 8, 6) := by
  rw [D2DMS]
  norm_num [truncToZero, Int.tdiv]

/-- C1 (code bug): the source tests `m > 11` instead of `m > 10` at the
1582 boundary, so November 1582 is given the Julian correction `b = 0`
while October 15–31 and December 1582 are Gregorian.  Consequently
1582-10-31 → 2299176.5 is followed by 1582-11-01 → 2299187.5 (a jump of
11 days instead of 1; the Gregorian correction would give 2299177.5), and
the day count decreases from 1582-11-30 to 1582-12-01. -/
theorem julianDayEx_nov_1582_divergence :
    JulianDayEx 1582 10 31 = 2299176.5 ∧ JulianDayEx 1582 11 1 = 2299187.5 ∧
      JulianDayEx 1582 12 1 < JulianDayEx 1582 11 30 := by
  refine ⟨?_, ?_, ?_⟩ <;>
    · simp only [JulianDayEx]
      norm_num [Int.tdiv]

/-! ## Helper lemmas for the NaN-propagation claim

The witness instantiates the solver at the J2000.0 epoch (`jd = 2451545`,
century time `0`), latitude `0` and zenith angle `0`: the Sun never stands
at the zenith of the equator at that epoch (its declination is south of
the equator), so the hour-angle cosine exceeds 1 and the solver must
answer NaN.  The lemmas below certify the sign and magnitude bounds. -/

theorem sind_pos_of_bounds (x : ℝ) (h1 : 0 < x) (h2 : x < 180) : 0 < sind x := by
  rw [sind, DEGRAD]
  apply Real.sin_pos_of_pos_of_lt_pi
  · exact mul_pos h1 (by positivity)
  · have hp := mul_pos (show (0:ℝ) < 180 - x by linarith) Real.pi_pos
    nlinarith [hp]

theorem sind_neg_of_bounds (x : ℝ) (h1 : 180 < x) (h2 : x < 360) : sind x < 0 := by
  rw [sind, DEGRAD]
  have h3 : Real.sin (x * (Real.pi / 180)) =
      -Real.sin (x * (Real.pi / 180) - Real.pi) := by
    rw [Real.sin_sub_pi]
    ring
  rw [h3]
  have hlow := mul_pos (show (0:ℝ) < x - 180 by linarith) Real.pi_pos
  have hhigh := mul_pos (show (0:ℝ) < 360 - x by linarith) Real.pi_pos
  have h4 : 0 < Real.sin (x * (Real.pi / 180) - Real.pi) :=
    Real.sin_pos_of_pos_of_lt_pi (by nlinarith) (by nlinarith)
  linarith

theorem sind_lt_one_of_bounds (x : ℝ) (h1 : 0 < x) (h2 : x < 90) : sind x < 1 := by
  rw [sind, DEGRAD]
  have hp := mul_pos (show (0:ℝ) < 90 - x by linarith) Real.pi_pos
  have hc : 0 < Real.cos (x * (Real.pi / 180)) := by
    apply Real.cos_pos_of_mem_Ioo
    constructor
    · have := mul_pos h1 Real.pi_pos
      nlinarith [Real.pi_pos]
    · nlinarith
  have hs := Real.sin_sq_add_cos_sq (x * (Real.pi / 180))
  nlinarith [Real.neg_one_le_sin (x * (Real.pi / 180)), mul_pos hc hc]

theorem centuryTime_J2000 : JulianCenturyFromJulianDay 2451545 = 0 := by
  rw [JulianCenturyFromJulianDay, JAN_1_2000_JD, DAYS_IN_CENTURY]
  norm_num

theorem oc0_bounds : 23 < ObliquityCorrectionEx 0 (OmegaRad 0) ∧
    ObliquityCorrectionEx 0 (OmegaRad 0) < 24 := by
  have h1 := Real.neg_one_le_cos (OmegaRad 0)
  have h2 := Real.cos_le_one (OmegaRad 0)
  simp only [ObliquityCorrectionEx, MeanObliquityEcliptic]
  constructor <;> nlinarith

theorem eqCenter0_bounds (m : ℝ) :
    -1.935 < EquationOfCenterSunEx 0 m ∧ EquationOfCenterSunEx 0 m < 1.935 := by
  simp only [EquationOfCenterSunEx]
  have a1 := Real.neg_one_le_sin (DEG2RAD m)
  have a2 := Real.sin_le_one (DEG2RAD m)
  have b1 := Real.neg_one_le_sin (DEG2RAD m + DEG2RAD m)
  have b2 := Real.sin_le_one (DEG2RAD m + DEG2RAD m)
  have c1 := Real.neg_one_le_sin (DEG2RAD m + DEG2RAD m + (DEG2RAD m + DEG2RAD m))
  have c2 := Real.sin_le_one (DEG2RAD m + DEG2RAD m + (DEG2RAD m + DEG2RAD m))
  constructor <;> nlinarith

theorem al0_bounds : 180 < ApparentLongitudeSunEx 0 (OmegaRad 0) ∧
    ApparentLongitudeSunEx 0 (OmegaRad 0) < 360 := by
  obtain ⟨hA, hB⟩ := eqCenter0_bounds (GeometricMeanAnomalySun 0)
  have h1 := Real.neg_one_le_sin (OmegaRad 0)
  have h2 := Real.sin_le_one (OmegaRad 0)
  simp only [ApparentLongitudeSunEx, TrueLongitudeSun, GeometricMeanLongitudeSun,
    EquationOfCenterSun]
  constructor <;> nlinarith

theorem decArg0_bounds :
    -1 < sind (ObliquityCorrectionEx 0 (OmegaRad 0)) *
        sind (ApparentLongitudeSunEx 0 (OmegaRad 0)) ∧
      sind (ObliquityCorrectionEx 0 (OmegaRad 0)) *
        sind (ApparentLongitudeSunEx 0 (OmegaRad 0)) < 0 := by
  obtain ⟨ho1, ho2⟩ := oc0_bounds
  obtain ⟨ha1, ha2⟩ := al0_bounds
  have h1 : 0 < sind (ObliquityCorrectionEx 0 (OmegaRad 0)) :=
    sind_pos_of_bounds _ (by linarith) (by linarith)
  have h2 : sind (ObliquityCorrectionEx 0 (OmegaRad 0)) < 1 :=
    sind_lt_one_of_bounds _ (by linarith) (by linarith)
  have h3 : sind (ApparentLongitudeSunEx 0 (OmegaRad 0)) < 0 :=
    sind_neg_of_bounds _ ha1 ha2
  have h4 : -1 ≤ sind (ApparentLongitudeSunEx 0 (OmegaRad 0)) := by
    rw [sind]
    exact Real.neg_one_le_sin _
  exact ⟨by nlinarith, mul_neg_of_pos_of_neg h1 h3⟩

theorem sunDeclinationRad_zero :
    SunDeclinationRad 0 =
      Real.arcsin (sind (ObliquityCorrectionEx 0 (OmegaRad 0)) *
        sind (ApparentLongitudeSunEx 0 (OmegaRad 0))) := rfl

theorem cosDec0_bounds :
    0 < Real.cos (SunDeclinationRad 0) ∧ Real.cos (SunDeclinationRad 0) < 1 := by
  rw [sunDeclinationRad_zero, Real.cos_arcsin]
  obtain ⟨hb1, hb2⟩ := decArg0_bounds
  constructor
  · exact Real.sqrt_pos.mpr (by nlinarith)
  · have h := Real.sqrt_lt_sqrt
      (show (0:ℝ) ≤ 1 - (sind (ObliquityCorrectionEx 0 (OmegaRad 0)) *
        sind (ApparentLongitudeSunEx 0 (OmegaRad 0))) ^ 2 by nlinarith)
      (show 1 - (sind (ObliquityCorrectionEx 0 (OmegaRad 0)) *
        sind (ApparentLongitudeSunEx 0 (OmegaRad 0))) ^ 2 < 1 by nlinarith)
    simpa using h

theorem cosHA_J2000_out :
    acosArgOutOfRange (DEG2RAD 0)
      (SunDeclinationRad (JulianCenturyFromJulianDay 2451545)) (DEG2RAD 0) := by
  simp only [acosArgOutOfRange, centuryTime_J2000]
  right
  have hz : DEG2RAD 0 = 0 := by rw [DEG2RAD]; ring
  rw [hz]
  obtain ⟨hc1, hc2⟩ := cosDec0_bounds
  simp only [Real.cos_zero, Real.sin_zero, zero_mul, sub_zero, one_mul]
  rw [lt_div_iff₀ hc1]
  linarith

theorem localHourAngle_none_of_out (latitudeRad declinationRad angleRad : ℝ)
    (h : acosArgOutOfRange latitudeRad declinationRad angleRad) :
    LocalHourAngleSunRad latitudeRad declinationRad angleRad = none := by
  simp only [acosArgOutOfRange] at h
  simp only [LocalHourAngleSunRad]
  by_cases hden : Real.cos latitudeRad * Real.cos declinationRad = 0
  · rw [if_pos hden]
  · rw [if_neg hden, if_pos h]

/-- C5: whenever the hour-angle cosine
`(cos angleRad − sin latitudeRad·sin declinationRad) /
(cos latitudeRad·cos declinationRad)` falls outside `[-1, 1]`,
`LocalHourAngleSunRad` returns NaN (`none`) rather than raising an error,
and when that happens for the declination of the input date, the NaN
propagates unmasked through both refinement passes of `UTCForSolarAngle`
to the caller. -/
theorem hourAngle_out_of_domain_nan (latitudeRad declinationRad angleRad : ℝ)
    (rise : Bool) (jd latitude angle : ℝ)
    (h1 : acosArgOutOfRange latitudeRad declinationRad angleRad)
    (h2 : acosArgOutOfRange (DEG2RAD latitude)
      (SunDeclinationRad (JulianCenturyFromJulianDay jd)) (DEG2RAD angle)) :
    LocalHourAngleSunRad latitudeRad declinationRad angleRad = none ∧
      UTCForSolarAngle rise jd latitude angle = none := by
  refine ⟨localHourAngle_none_of_out _ _ _ h1, ?_⟩
  have hfirst : UTCForSolarAngleAux rise jd (DEG2RAD latitude) (DEG2RAD angle) = none := by
    simp only [UTCForSolarAngleAux, localHourAngle_none_of_out _ _ _ h2]
    rfl
  simp only [UTCForSolarAngle, hfirst]
  rfl

/-- Witness for C5: a hand-checkable out-of-range triple of radian inputs,
and the J2000.0 epoch at the equator with zenith angle 0 (the Sun never
reaches the equatorial zenith at that epoch), both yielding NaN. -/
theorem hourAngle_out_of_domain_nan_witness :
    LocalHourAngleSunRad (Real.pi / 4) (-(Real.pi / 4)) 0 = none ∧
      UTCForSolarAngle true 2451545 0 0 = none :=
  hourAngle_out_of_domain_nan (Real.pi / 4) (-(Real.pi / 4)) 0 true 2451545 0 0
    (by
      simp only [acosArgOutOfRange]
      right
      have hs : Real.sqrt 2 * Real.sqrt 2 = 2 :=
        Real.mul_self_sqrt (by norm_num)
      simp only [Real.cos_zero, Real.sin_neg, Real.cos_neg,
        Real.sin_pi_div_four, Real.cos_pi_div_four]
      rw [lt_div_iff₀ (by nlinarith [hs, Real.sqrt_nonneg 2])]
      nlinarith [hs, Real.sqrt_nonneg 2])
    cosHA_J2000_out

end SolarTimes
